import Mathlib

/-!
Shallow embedding of the `poll` CosmWasm contract
(`src/contract.rs`, `src/state.rs`, `src/msg.rs`).

Modelling conventions:
* `Addr` is modelled as `String`; identity-format validation is host-delegated,
  so it is passed in as a parameter `valid : String → Bool`, and
  `addr_validate` returns its argument unchanged when `valid` accepts it.
* The storage (`state.rs`) has three regions: the `CONFIG` singleton, the
  `POLL` map keyed by `poll_id`, and the `BALLOT` map keyed by
  `(voter, poll_id)`.  The underlying host store is an ordered key-value
  store; `POLL` is represented as an association list kept sorted in strictly
  ascending key order (so that `Map::range` in ascending order is the list
  itself), and `BALLOT` as an association list (ballot iteration order is
  never observed by the contract, so insertion order is kept).
* `u64` vote counts are modelled as `Nat`.  Checked subtraction at zero is
  modelled as an explicit fault branch (`panicCountUnderflow`), matching the
  Rust panic of `poll.options[i].1 -= 1` at zero; addition overflow at
  `2 ^ 64` is not modelled, since no claim concerns it.
* A Rust panic (`Option::unwrap` on `None`, arithmetic fault) aborts the
  transaction; the host commits no partial writes on any failure, so every
  operation is a pure function returning `Except`: on `Except.error` the
  store is unchanged (made explicit by `commit`).
* `cw2::set_contract_version` writes to a storage region owned by the `cw2`
  library, outside the three regions above, and is not modelled.
-/

namespace PollContract

/-- The `Config` from `state.rs`: the singleton with the validated admin. -/
structure Config where
  admin : String
deriving Repr, DecidableEq

/-- The `Poll` from `state.rs`: creator, question and the ordered
`(label, vote_count)` list. -/
structure Poll where
  admin : String
  question : String
  options : List (String × Nat)
deriving Repr, DecidableEq

/-- The `Ballot` from `state.rs`: the label currently chosen by one voter. -/
structure Ballot where
  option : String
deriving Repr, DecidableEq

/-- The three storage regions of `state.rs`. -/
structure Store where
  config : Option Config
  polls : List (String × Poll)
  ballots : List ((String × String) × Ballot)
deriving Repr, DecidableEq

/-- The `POLL.may_load`: first entry with the given key, if any. -/
def pollsGet : List (String × Poll) → String → Option Poll
  | [], _ => none
  | (k, v) :: rest, key => if k = key then some v else pollsGet rest key

/-- The `POLL.save`: insert or replace, keeping keys in strictly ascending order
(this mirrors the host's ordered key-value store). -/
def pollsPut : List (String × Poll) → String → Poll → List (String × Poll)
  | [], key, v => [(key, v)]
  | (k, v0) :: rest, key, v =>
    if key = k then (key, v) :: rest
    else if key < k then (key, v) :: (k, v0) :: rest
    else (k, v0) :: pollsPut rest key v

/-- The `BALLOT.may_load`: first entry with the given composite key, if any. -/
def ballotsGet : List ((String × String) × Ballot) → String × String → Option Ballot
  | [], _ => none
  | (k, v) :: rest, key => if k = key then some v else ballotsGet rest key

/-- The `BALLOT.save` (the write performed by `BALLOT.update`): replace the entry
at the key if present, else append. -/
def ballotsPut : List ((String × String) × Ballot) → String × String → Ballot →
    List ((String × String) × Ballot)
  | [], key, v => [(key, v)]
  | (k, v0) :: rest, key, v =>
    if k = key then (key, v) :: rest else (k, v0) :: ballotsPut rest key v

/-- Number of ballot entries whose composite key references `pid`. -/
def ballotCount (l : List ((String × String) × Ballot)) (pid : String) : Nat :=
  (l.filter (fun kv => decide (kv.1.2 = pid))).length

/-- Sum of `vote_count` over an option list. -/
def optionsTotal (l : List (String × Nat)) : Nat :=
  (l.map Prod.snd).sum

/-- The `options[i].1 ± 1` in the Rust code: apply `f` to the count at index `i`
(out-of-range leaves the list unchanged; the code only uses in-range indices
produced by `position`). -/
def modifyIdx : List (String × Nat) → Nat → (Nat → Nat) → List (String × Nat)
  | [], _, _ => []
  | (lbl, c) :: rest, 0, f => (lbl, f c) :: rest
  | p :: rest, i + 1, f => p :: modifyIdx rest i f

/-- Count stored at index `i` (0 when out of range). -/
def countAt (l : List (String × Nat)) (i : Nat) : Nat :=
  ((l.get? i).map Prod.snd).getD 0

/-- The `options.iter().position(|option| option.0 == x)`: index of the first
option whose label equals `x`. -/
def firstIdx : List (String × Nat) → String → Option Nat
  | [], _ => none
  | (lbl, _) :: rest, x => if lbl = x then some 0 else (firstIdx rest x).map (· + 1)

/-- Modelled from the spec: the crate's `error.rs` (the `ContractError` enum)
is not under `src/`.  Its two variants used by `contract.rs` —
`TooManyPollOptions {}` and `CustomError { val }` — are reconstructed from
those uses and from the spec's error taxonomy (`TooManyOptions`,
`PollNotFound` surfaced as a user-visible error).  The `panic…` variants are
not `ContractError` values: they model the Rust panics that abort the
transaction (the two unguarded `position(…).unwrap()` lookups and checked
`u64` subtraction below zero), the spec's `InvariantFault`. -/
inductive ExecError where
  | tooManyPollOptions
  | customError (val : String)
  | panicOldVoteMissing
  | panicCountUnderflow
  | panicNewVoteMissing
deriving Repr, DecidableEq

/-- A `Response` is its list of `(key, value)` attributes. -/
def Response := List (String × String)
deriving Repr, DecidableEq

/-- The `StdError` cases reachable in the embedded fragment: only
`addr_validate` failure. -/
inductive StdErr where
  | invalidAddress (a : String)
deriving Repr, DecidableEq

/-- The `deps.api.addr_validate`: host-delegated format check; returns the
address unchanged when the host accepts it. -/
def addr_validate (valid : String → Bool) (a : String) : Except StdErr String :=
  if valid a then .ok a else .error (.invalidAddress a)

/-- The `instantiate` from `contract.rs`: resolve the admin (caller if omitted),
validate it, save the config, emit the two attributes. -/
def instantiate (valid : String → Bool) (sender : String) (admin : Option String)
    (s : Store) : Except StdErr (Store × Response) :=
  let adm := admin.getD sender
  match addr_validate valid adm with
  | .error e => .error e
  | .ok validated_admin =>
    .ok ({ s with config := some { admin := validated_admin } },
         [("action", "instantiate"), (adm, validated_admin)])

/-- The `execute_create_poll` from `contract.rs`. -/
def execute_create_poll (sender poll_id question : String) (options : List String)
    (s : Store) : Except ExecError (Store × Response) :=
  if options.length > 10 then
    .error .tooManyPollOptions
  else
    let opts : List (String × Nat) := options.map (fun o => (o, 0))
    let poll : Poll := { admin := sender, question := question, options := opts }
    .ok ({ s with polls := pollsPut s.polls poll_id poll },
         [("action", "create poll")])

/-- The `execute_vote` from `contract.rs`.  The `BALLOT.update` closure runs
first: with an existing ballot it locates the old vote's option
(`unwrap` → `panicOldVoteMissing` when absent) and decrements its count
(checked `u64` → `panicCountUnderflow` at zero); afterwards the new vote's
option is located on the updated list (`unwrap` → `panicNewVoteMissing`),
incremented, and poll and ballot are saved. -/
def execute_vote (sender poll_id vote : String) (s : Store) :
    Except ExecError (Store × Response) :=
  match pollsGet s.polls poll_id with
  | none => .error (.customError "Poll not found")
  | some poll =>
    let afterOld : Except ExecError (List (String × Nat)) :=
      match ballotsGet s.ballots (sender, poll_id) with
      | some ballot =>
        match firstIdx poll.options ballot.option with
        | none => .error .panicOldVoteMissing
        | some i =>
          if countAt poll.options i = 0 then .error .panicCountUnderflow
          else .ok (modifyIdx poll.options i (fun c => c - 1))
      | none => .ok poll.options
    match afterOld with
    | .error e => .error e
    | .ok opts1 =>
      match firstIdx opts1 vote with
      | none => .error .panicNewVoteMissing
      | some j =>
        let poll2 : Poll := { poll with options := modifyIdx opts1 j (fun c => c + 1) }
        .ok ({ s with
                polls := pollsPut s.polls poll_id poll2,
                ballots := ballotsPut s.ballots (sender, poll_id) { option := vote } },
             [("action", "vote in poll")])

/-- The `ExecuteMsg` from `msg.rs`. -/
inductive ExecuteMsg where
  | createPoll (poll_id question : String) (options : List String)
  | vote (poll_id vote : String)
deriving Repr, DecidableEq

/-- The `execute` dispatcher from `contract.rs`. -/
def execute (sender : String) (msg : ExecuteMsg) (s : Store) :
    Except ExecError (Store × Response) :=
  match msg with
  | .createPoll poll_id question options =>
      execute_create_poll sender poll_id question options s
  | .vote poll_id vote => execute_vote sender poll_id vote s

/-- The host's transactional semantics: an error aborts the call and commits
nothing, so the store is unchanged. -/
def commit (r : Except ExecError (Store × Response)) (s : Store) : Store :=
  match r with
  | .ok (s1, _) => s1
  | .error _ => s

/-- The `AllPollResponse` from `msg.rs`. -/
structure AllPollResponse where
  polls : List Poll
deriving Repr, DecidableEq

/-- The `PollResponse` from `msg.rs`. -/
structure PollResponse where
  poll : Option Poll
deriving Repr, DecidableEq

/-- The `VoteResponse` from `msg.rs`. -/
structure VoteResponse where
  vote : Option Ballot
deriving Repr, DecidableEq

/-- The `query_all_poll`: `POLL.range(…, Order::Ascending)` collected — with the
sorted-list representation this is the stored list itself. -/
def query_all_poll (s : Store) : AllPollResponse :=
  { polls := s.polls.map Prod.snd }

/-- The `query_poll`: `POLL.may_load`. -/
def query_poll (s : Store) (poll_id : String) : PollResponse :=
  { poll := pollsGet s.polls poll_id }

/-- The `query_vote` from `contract.rs`, with its parameters in source order:
`(address, poll_id)`.  It validates `address` and loads the ballot at
`(validated_address, poll_id)`. -/
def query_vote (valid : String → Bool) (s : Store) (address poll_id : String) :
    Except StdErr VoteResponse :=
  match addr_validate valid address with
  | .error e => .error e
  | .ok validated_address =>
    .ok { vote := ballotsGet s.ballots (validated_address, poll_id) }

/-- The `QueryMsg` from `msg.rs`. -/
inductive QueryMsg where
  | allPoll
  | poll (poll_id : String)
  | vote (poll_id address : String)
deriving Repr, DecidableEq

/-- The three possible query answers (the deserialized `to_binary` payloads). -/
inductive QueryAnswer where
  | all (r : AllPollResponse)
  | onePoll (r : PollResponse)
  | oneVote (r : VoteResponse)
deriving Repr, DecidableEq

/-- The `query` dispatcher from `contract.rs`.  NOTE: the source calls
`query_vote(deps, env, poll_id, address)` while `query_vote`'s parameters
are `(deps, _env, address, poll_id)`, so `poll_id` is passed into the
`address` parameter and vice versa; the call below reproduces that
positional swap exactly. -/
def query (valid : String → Bool) (s : Store) (m : QueryMsg) :
    Except StdErr QueryAnswer :=
  match m with
  | .allPoll => .ok (.all (query_all_poll s))
  | .poll poll_id => .ok (.onePoll (query_poll s poll_id))
  | .vote poll_id address => (query_vote valid s poll_id address).map .oneVote

/-- The state right after `instantiate` on empty storage. -/
def initStore (admin : String) : Store :=
  { config := some { admin := admin }, polls := [], ballots := [] }

/-- The `RunOk s ops s1`: the sequence of `(sender, message)` pairs `ops`
executes from `s`, every step succeeding, ending in `s1`. -/
inductive RunOk : Store → List (String × ExecuteMsg) → Store → Prop
  | nil (s : Store) : RunOk s [] s
  | cons {s s1 s2 : Store} {r : Response} {sender : String} {msg : ExecuteMsg}
      {ops : List (String × ExecuteMsg)} :
      execute sender msg s = .ok (s1, r) → RunOk s1 ops s2 →
      RunOk s ((sender, msg) :: ops) s2

/-- Like `RunOk`, but every `createPoll` step targets a `poll_id` that no
stored ballot references at the time of the call. -/
inductive RunOkFresh : Store → List (String × ExecuteMsg) → Store → Prop
  | nil (s : Store) : RunOkFresh s [] s
  | consCreate {s s1 s2 : Store} {r : Response}
      {sender poll_id question : String} {options : List String}
      {ops : List (String × ExecuteMsg)} :
      ballotCount s.ballots poll_id = 0 →
      execute sender (.createPoll poll_id question options) s = .ok (s1, r) →
      RunOkFresh s1 ops s2 →
      RunOkFresh s ((sender, .createPoll poll_id question options) :: ops) s2
  | consVote {s s1 s2 : Store} {r : Response} {sender poll_id vote : String}
      {ops : List (String × ExecuteMsg)} :
      execute sender (.vote poll_id vote) s = .ok (s1, r) →
      RunOkFresh s1 ops s2 →
      RunOkFresh s ((sender, .vote poll_id vote) :: ops) s2

/-! ### Helper lemmas about the store primitives -/

theorem pollsGet_put_self (l : List (String × Poll)) (k : String) (v : Poll) :
    pollsGet (pollsPut l k v) k = some v := by
  induction l with
  | nil => simp [pollsPut, pollsGet]
  | cons p rest ih =>
    obtain ⟨k0, v0⟩ := p
    by_cases h1 : k = k0
    · simp [pollsPut, h1, pollsGet]
    · by_cases h2 : k < k0
      · simp [pollsPut, h1, h2, pollsGet]
      · simp [pollsPut, h1, h2, pollsGet, Ne.symm h1, ih]

theorem pollsGet_put_other (l : List (String × Poll)) (k k2 : String) (v : Poll)
    (hne : k2 ≠ k) : pollsGet (pollsPut l k v) k2 = pollsGet l k2 := by
  induction l with
  | nil => simp [pollsPut, pollsGet, Ne.symm hne]
  | cons p rest ih =>
    obtain ⟨k0, v0⟩ := p
    by_cases h1 : k = k0
    · subst h1
      simp [pollsPut, pollsGet, Ne.symm hne]
    · by_cases h2 : k < k0
      · simp [pollsPut, h1, h2, pollsGet, Ne.symm hne]
      · simp [pollsPut, h1, h2, pollsGet, ih]

theorem ballotsGet_put_self (l : List ((String × String) × Ballot))
    (k : String × String) (v : Ballot) : ballotsGet (ballotsPut l k v) k = some v := by
  induction l with
  | nil => simp [ballotsPut, ballotsGet]
  | cons p rest ih =>
    obtain ⟨k0, v0⟩ := p
    by_cases h1 : k0 = k
    · simp [ballotsPut, h1, ballotsGet]
    · simp [ballotsPut, h1, ballotsGet, ih]

theorem ballotsGet_put_other (l : List ((String × String) × Ballot))
    (k k2 : String × String) (v : Ballot) (hne : k2 ≠ k) :
    ballotsGet (ballotsPut l k v) k2 = ballotsGet l k2 := by
  induction l with
  | nil => simp [ballotsPut, ballotsGet, Ne.symm hne]
  | cons p rest ih =>
    obtain ⟨k0, v0⟩ := p
    by_cases h1 : k0 = k
    · subst h1
      simp [ballotsPut, ballotsGet, Ne.symm hne]
    · simp [ballotsPut, h1, ballotsGet, ih]

theorem ballotCount_put_present (l : List ((String × String) × Ballot))
    (k : String × String) (v : Ballot) (b : Ballot) (h : ballotsGet l k = some b)
    (pid : String) : ballotCount (ballotsPut l k v) pid = ballotCount l pid := by
  induction l with
  | nil => simp [ballotsGet] at h
  | cons p rest ih =>
    obtain ⟨k0, v0⟩ := p
    by_cases h1 : k0 = k
    · subst h1
      simp [ballotsPut, ballotCount, List.filter]
      rcases Decidable.em (k0.2 = pid) with h2 | h2 <;> simp [h2]
    · simp [ballotsGet, h1] at h
      simp [ballotsPut, h1, ballotCount, List.filter] at ih ⊢
      rcases Decidable.em (k0.2 = pid) with h2 | h2 <;> simp [h2, ih h]

theorem ballotCount_put_absent (l : List ((String × String) × Ballot))
    (k : String × String) (v : Ballot) (h : ballotsGet l k = none) (pid : String) :
    ballotCount (ballotsPut l k v) pid =
      ballotCount l pid + (if k.2 = pid then 1 else 0) := by
  induction l with
  | nil =>
    simp [ballotsPut, ballotCount, List.filter]
    rcases Decidable.em (k.2 = pid) with h2 | h2 <;> simp [h2]
  | cons p rest ih =>
    obtain ⟨k0, v0⟩ := p
    by_cases h1 : k0 = k
    · simp [ballotsGet, h1] at h
    · simp [ballotsGet, h1] at h
      simp [ballotsPut, h1, ballotCount, List.filter] at ih ⊢
      rcases Decidable.em (k0.2 = pid) with h2 | h2 <;>
        · simp [h2, ih h]
          try omega

/-! ### Helper lemmas about option lists -/

theorem modifyIdx_length (l : List (String × Nat)) (i : Nat) (f : Nat → Nat) :
    (modifyIdx l i f).length = l.length := by
  induction l generalizing i with
  | nil => simp [modifyIdx]
  | cons p rest ih =>
    obtain ⟨lbl, c⟩ := p
    cases i with
    | zero => simp [modifyIdx]
    | succ i => simp [modifyIdx, ih]

theorem countAt_modifyIdx_self (l : List (String × Nat)) (i : Nat) (f : Nat → Nat)
    (h : i < l.length) : countAt (modifyIdx l i f) i = f (countAt l i) := by
  induction l generalizing i with
  | nil => simp at h
  | cons p rest ih =>
    obtain ⟨lbl, c⟩ := p
    cases i with
    | zero => simp [modifyIdx, countAt]
    | succ i =>
      simp [modifyIdx, countAt] at ih ⊢
      exact ih i (by simpa using Nat.lt_of_succ_lt_succ h)

theorem countAt_modifyIdx_other (l : List (String × Nat)) (i k : Nat) (f : Nat → Nat)
    (h : k ≠ i) : countAt (modifyIdx l i f) k = countAt l k := by
  induction l generalizing i k with
  | nil => simp [modifyIdx]
  | cons p rest ih =>
    obtain ⟨lbl, c⟩ := p
    cases i with
    | zero =>
      cases k with
      | zero => exact absurd rfl h
      | succ k => simp [modifyIdx, countAt]
    | succ i =>
      cases k with
      | zero => simp [modifyIdx, countAt]
      | succ k =>
        simp [modifyIdx, countAt] at ih ⊢
        exact ih i k (fun hk => h (by simp [hk]))

theorem optionsTotal_modifyIdx (l : List (String × Nat)) (i : Nat) (f : Nat → Nat)
    (h : i < l.length) :
    optionsTotal (modifyIdx l i f) + countAt l i = optionsTotal l + f (countAt l i) := by
  induction l generalizing i with
  | nil => simp at h
  | cons p rest ih =>
    obtain ⟨lbl, c⟩ := p
    cases i with
    | zero => simp [modifyIdx, countAt, optionsTotal] ; omega
    | succ i =>
      have := ih i (by simpa using Nat.lt_of_succ_lt_succ h)
      simp [modifyIdx, countAt, optionsTotal] at this ⊢
      omega

theorem modifyIdx_cancel (l : List (String × Nat)) (i : Nat)
    (h : 1 ≤ countAt l i) :
    modifyIdx (modifyIdx l i (fun c => c - 1)) i (fun c => c + 1) = l := by
  induction l generalizing i with
  | nil => simp [modifyIdx]
  | cons p rest ih =>
    obtain ⟨lbl, c⟩ := p
    cases i with
    | zero =>
      simp [countAt] at h
      simp [modifyIdx]
      omega
    | succ i =>
      have h2 : 1 ≤ countAt rest i := h
      simp [modifyIdx, ih i h2]

theorem firstIdx_lt_length (l : List (String × Nat)) (x : String) (i : Nat)
    (h : firstIdx l x = some i) : i < l.length := by
  induction l generalizing i with
  | nil => simp [firstIdx] at h
  | cons p rest ih =>
    obtain ⟨lbl, c⟩ := p
    by_cases h1 : lbl = x
    · simp [firstIdx, h1] at h
      simp
      omega
    · simp [firstIdx, h1] at h
      obtain ⟨i0, hi0, rfl⟩ := h
      have := ih i0 hi0
      simp
      omega

theorem firstIdx_label (l : List (String × Nat)) (x : String) (i : Nat)
    (h : firstIdx l x = some i) : (l.get? i).map Prod.fst = some x := by
  induction l generalizing i with
  | nil => simp [firstIdx] at h
  | cons p rest ih =>
    obtain ⟨lbl, c⟩ := p
    by_cases h1 : lbl = x
    · simp [firstIdx, h1] at h
      simp [← h, h1]
    · simp [firstIdx, h1] at h
      obtain ⟨i0, hi0, rfl⟩ := h
      simpa using ih i0 hi0

theorem firstIdx_modifyIdx (l : List (String × Nat)) (i : Nat) (f : Nat → Nat)
    (x : String) : firstIdx (modifyIdx l i f) x = firstIdx l x := by
  induction l generalizing i with
  | nil => simp [modifyIdx]
  | cons p rest ih =>
    obtain ⟨lbl, c⟩ := p
    cases i with
    | zero => simp [modifyIdx, firstIdx]
    | succ i => simp [modifyIdx, firstIdx, ih]

/-! ### Claim theorems -/

/-- Claim C3: for every options list with length > 10, `CreatePoll` fails
with the `TooManyOptions` error and the store is unchanged — no poll is
saved under the given `poll_id`, and any existing poll, the config and all
ballots are untouched (the error commits nothing). -/
theorem create_poll_too_many_options (sender poll_id question : String)
    (options : List String) (s : Store) (h : options.length > 10) :
    execute_create_poll sender poll_id question options s = .error .tooManyPollOptions
    ∧ commit (execute_create_poll sender poll_id question options s) s = s := by
  have h1 : execute_create_poll sender poll_id question options s
      = .error .tooManyPollOptions := by
    simp [execute_create_poll, h]
  exact ⟨h1, by rw [h1] ; rfl⟩

/-- Claim C3 witness: eleven options. -/
theorem create_poll_too_many_options_witness :
    (["a","b","c","d","e","f","g","h","i","j","k"] : List String).length > 10
    ∧ (execute_create_poll "addr1" "1" "q" ["a","b","c","d","e","f","g","h","i","j","k"]
          { config := none, polls := [], ballots := [] }
        = .error .tooManyPollOptions
      ∧ commit (execute_create_poll "addr1" "1" "q"
            ["a","b","c","d","e","f","g","h","i","j","k"]
            { config := none, polls := [], ballots := [] })
          { config := none, polls := [], ballots := [] }
        = { config := none, polls := [], ballots := [] }) :=
  ⟨by decide,
   create_poll_too_many_options "addr1" "1" "q"
     ["a","b","c","d","e","f","g","h","i","j","k"]
     { config := none, polls := [], ballots := [] } (by decide)⟩

/-- Claim C4: for every options list with length ≤ 10, `CreatePoll` succeeds
with the result tagged `"create poll"`; the poll stored under `poll_id` has
`admin` equal to the caller and exactly one `(label, 0)` entry per input
label in input order (duplicates kept); any previously stored poll at that
id is overwritten unconditionally, while other polls, the ballots and the
config are untouched. -/
theorem create_poll_le_ten (sender poll_id question : String)
    (options : List String) (s : Store) (h : options.length ≤ 10) :
    ∃ s1 : Store,
      execute_create_poll sender poll_id question options s
        = .ok (s1, [("action", "create poll")])
      ∧ pollsGet s1.polls poll_id
          = some { admin := sender, question := question,
                   options := options.map (fun o => (o, 0)) }
      ∧ (∀ k, k ≠ poll_id → pollsGet s1.polls k = pollsGet s.polls k)
      ∧ s1.ballots = s.ballots ∧ s1.config = s.config := by
  refine ⟨{ s with
              polls := pollsPut s.polls poll_id
                ({ admin := sender, question := question,
                   options := options.map (fun o => (o, 0)) } : Poll) },
          ?_, ?_, ?_, rfl, rfl⟩
  · simp [execute_create_poll, Nat.not_lt.mpr h]
  · exact pollsGet_put_self _ _ _
  · intro k hk
    exact pollsGet_put_other _ _ _ _ hk

/-- Claim C4 witness: two duplicate labels, overwriting an existing poll at
id "1" that had a nonzero count, called by a different sender. -/
theorem create_poll_le_ten_witness :
    (["Yes", "Yes"] : List String).length ≤ 10
    ∧ ∃ s1 : Store,
        execute_create_poll "addr2" "1" "q2" ["Yes", "Yes"]
            { config := some { admin := "addr1" },
              polls := [("1", { admin := "addr1", question := "q1",
                                options := [("X", 3)] })],
              ballots := [] }
          = .ok (s1, [("action", "create poll")])
        ∧ pollsGet s1.polls "1"
            = some { admin := "addr2", question := "q2",
                     options := [("Yes", 0), ("Yes", 0)] }
        ∧ (∀ k, k ≠ "1" → pollsGet s1.polls k =
            pollsGet [("1", { admin := "addr1", question := "q1",
                              options := [("X", 3)] })] k)
        ∧ s1.ballots = [] ∧ s1.config = some { admin := "addr1" } :=
  ⟨by decide,
   create_poll_le_ten "addr2" "1" "q2" ["Yes", "Yes"]
     { config := some { admin := "addr1" },
       polls := [("1", { admin := "addr1", question := "q1", options := [("X", 3)] })],
       ballots := [] } (by decide)⟩

/-- Claim C5: for every caller and every `poll_id` with no stored poll,
`Vote` fails with the poll-not-found error (`CustomError` with value
"Poll not found", the spec's `PollNotFound`) and the state is unchanged. -/
theorem vote_poll_not_found (sender poll_id vote : String) (s : Store)
    (h : pollsGet s.polls poll_id = none) :
    execute_vote sender poll_id vote s = .error (.customError "Poll not found")
    ∧ commit (execute_vote sender poll_id vote s) s = s := by
  have h1 : execute_vote sender poll_id vote s
      = .error (.customError "Poll not found") := by
    unfold execute_vote
    rw [h]
  exact ⟨h1, by rw [h1] ; rfl⟩

/-- Claim C5 witness: voting on poll "2" when only poll "1" exists. -/
theorem vote_poll_not_found_witness :
    pollsGet [("1", ({ admin := "addr1", question := "q",
                       options := [("Yes", 0)] } : Poll))] "2" = none
    ∧ (execute_vote "addr1" "2" "Yes"
          { config := some { admin := "addr1" },
            polls := [("1", { admin := "addr1", question := "q",
                              options := [("Yes", 0)] })],
            ballots := [] }
        = .error (.customError "Poll not found")
      ∧ commit (execute_vote "addr1" "2" "Yes"
            { config := some { admin := "addr1" },
              polls := [("1", { admin := "addr1", question := "q",
                                options := [("Yes", 0)] })],
              ballots := [] })
          { config := some { admin := "addr1" },
            polls := [("1", { admin := "addr1", question := "q",
                              options := [("Yes", 0)] })],
            ballots := [] }
        = { config := some { admin := "addr1" },
            polls := [("1", { admin := "addr1", question := "q",
                              options := [("Yes", 0)] })],
            ballots := [] }) :=
  ⟨by decide,
   vote_poll_not_found "addr1" "2" "Yes"
     { config := some { admin := "addr1" },
       polls := [("1", { admin := "addr1", question := "q", options := [("Yes", 0)] })],
       ballots := [] } (by decide)⟩

/-- Claim C9: for every `Instantiate` call whose resolved admin passes
validation: if the `admin` field is omitted the caller's identity is used;
the validated admin is stored in the singleton config; and the emitted
result carries the action name (`("action", "instantiate")`) together with
the resolved admin identity (the attribute whose key and value are both the
resolved admin) as the audit record. -/
theorem instantiate_resolves_admin (valid : String → Bool) (sender : String)
    (admin : Option String) (s : Store) (h : valid (admin.getD sender) = true) :
    instantiate valid sender admin s =
      .ok ({ s with config := some { admin := admin.getD sender } },
           [("action", "instantiate"), (admin.getD sender, admin.getD sender)])
    ∧ (admin = none → admin.getD sender = sender) := by
  constructor
  · simp [instantiate, addr_validate, h]
  · intro ha
    simp [ha]

/-- Claim C9 witness: admin omitted, caller "addr1", every string valid. -/
theorem instantiate_resolves_admin_witness :
    (fun _ : String => true) ((none : Option String).getD "addr1") = true
    ∧ (instantiate (fun _ => true) "addr1" none
          { config := none, polls := [], ballots := [] }
        = .ok ({ config := some { admin := "addr1" }, polls := [], ballots := [] },
               [("action", "instantiate"), ("addr1", "addr1")])
      ∧ ((none : Option String) = none → (none : Option String).getD "addr1" = "addr1")) :=
  ⟨rfl,
   instantiate_resolves_admin (fun _ => true) "addr1" none
     { config := none, polls := [], ballots := [] } rfl⟩

/-- The representation invariant of the `POLL` region: keys strictly
ascending (the host key-value store is ordered, and `pollsPut` keeps the
list in that order). -/
def pollsSorted (l : List (String × Poll)) : Prop :=
  l.Pairwise (fun a b => a.1 < b.1)

theorem pollsGet_of_mem (l : List (String × Poll)) (k : String) (p : Poll) :
    pollsSorted l → (k, p) ∈ l → pollsGet l k = some p := by
  induction l with
  | nil =>
    intro _ hm
    simp at hm
  | cons q rest ih =>
    intro hs hm
    obtain ⟨k0, v0⟩ := q
    rw [pollsSorted, List.pairwise_cons] at hs
    rcases List.mem_cons.mp hm with h1 | h1
    · injection h1 with e1 e2
      subst e1
      subst e2
      simp [pollsGet]
    · have hne : k0 ≠ k := ne_of_lt (hs.1 (k, p) h1)
      simp [pollsGet, hne, ih hs.2 h1]

theorem mem_of_pollsGet (l : List (String × Poll)) (k : String) (p : Poll)
    (h : pollsGet l k = some p) : p ∈ l.map Prod.snd := by
  induction l with
  | nil => simp [pollsGet] at h
  | cons q rest ih =>
    obtain ⟨k0, v0⟩ := q
    by_cases h1 : k0 = k
    · simp [pollsGet, h1] at h
      simp [← h]
    · simp [pollsGet, h1] at h
      simp [ih h]

/-- Claim C8: on every store satisfying the ordered-store representation
invariant, `AllPolls` returns exactly the stored polls — the value list of
the key-sorted poll region, so in ascending key order, with no filtering
and no pagination (a poll is in the answer iff it is stored under some
key) — and `Poll(poll_id)` returns `Some` of the stored poll or `None`,
never an error for a missing poll (both dispatched queries always return
`.ok`). -/
theorem queries_read_store (s : Store) (h : pollsSorted s.polls) :
    (query_all_poll s).polls = s.polls.map Prod.snd
    ∧ (∀ p : Poll, p ∈ (query_all_poll s).polls ↔ ∃ k, pollsGet s.polls k = some p)
    ∧ (∀ valid poll_id,
        query valid s (.poll poll_id)
          = .ok (.onePoll { poll := pollsGet s.polls poll_id }))
    ∧ (∀ valid, query valid s .allPoll
          = .ok (.all { polls := s.polls.map Prod.snd })) := by
  refine ⟨rfl, ?_, fun _ _ => rfl, fun _ => rfl⟩
  intro p
  constructor
  · intro hp
    rcases List.mem_map.mp hp with ⟨⟨k, v⟩, hmem, hv⟩
    refine ⟨k, ?_⟩
    rw [pollsGet_of_mem s.polls k v h hmem]
    exact congrArg some hv
  · rintro ⟨k, hk⟩
    exact mem_of_pollsGet s.polls k p hk

/-- Claim C8 witness: a store holding polls "1" and "2". -/
theorem queries_read_store_witness :
    pollsSorted [("1", ({ admin := "addr1", question := "qa",
                          options := [("Yes", 1)] } : Poll)),
                 ("2", ({ admin := "addr1", question := "qb",
                          options := [("No", 0)] } : Poll))]
    ∧ ((query_all_poll
          { config := some { admin := "addr1" },
            polls := [("1", { admin := "addr1", question := "qa",
                              options := [("Yes", 1)] }),
                      ("2", { admin := "addr1", question := "qb",
                              options := [("No", 0)] })],
            ballots := [] }).polls
        = [{ admin := "addr1", question := "qa", options := [("Yes", 1)] },
           { admin := "addr1", question := "qb", options := [("No", 0)] }]
      ∧ (∀ p : Poll,
          p ∈ (query_all_poll
            { config := some { admin := "addr1" },
              polls := [("1", { admin := "addr1", question := "qa",
                                options := [("Yes", 1)] }),
                        ("2", { admin := "addr1", question := "qb",
                                options := [("No", 0)] })],
              ballots := [] }).polls
          ↔ ∃ k, pollsGet [("1", ({ admin := "addr1", question := "qa",
                                    options := [("Yes", 1)] } : Poll)),
                           ("2", ({ admin := "addr1", question := "qb",
                                    options := [("No", 0)] } : Poll))] k = some p)
      ∧ (∀ valid poll_id,
          query valid
            { config := some { admin := "addr1" },
              polls := [("1", { admin := "addr1", question := "qa",
                                options := [("Yes", 1)] }),
                        ("2", { admin := "addr1", question := "qb",
                                options := [("No", 0)] })],
              ballots := [] } (.poll poll_id)
          = .ok (.onePoll
              { poll := pollsGet
                          [("1", ({ admin := "addr1", question := "qa",
                                    options := [("Yes", 1)] } : Poll)),
                           ("2", ({ admin := "addr1", question := "qb",
                                    options := [("No", 0)] } : Poll))] poll_id }))
      ∧ (∀ valid,
          query valid
            { config := some { admin := "addr1" },
              polls := [("1", { admin := "addr1", question := "qa",
                                options := [("Yes", 1)] }),
                        ("2", { admin := "addr1", question := "qb",
                                options := [("No", 0)] })],
              ballots := [] } .allPoll
          = .ok (.all { polls :=
              [{ admin := "addr1", question := "qa", options := [("Yes", 1)] },
               { admin := "addr1", question := "qb", options := [("No", 0)] }] }))) :=
  ⟨by simp [pollsSorted]
      decide,
   queries_read_store
     { config := some { admin := "addr1" },
       polls := [("1", { admin := "addr1", question := "qa", options := [("Yes", 1)] }),
                 ("2", { admin := "addr1", question := "qb", options := [("No", 0)] })],
       ballots := [] }
     (by simp [pollsSorted]
         decide)⟩

/-- Claim C1 (evidence of the code bug): `contract.rs` dispatches
`QueryMsg::Vote { poll_id, address }` to `query_vote(deps, env, poll_id,
address)`, but `query_vote`'s parameters are `(deps, _env, address,
poll_id)`, so the two strings are swapped.  On a store holding the ballot
`{option: "No"}` under key `("addr1", "1")`, with every string passing
host validation, the query `Vote { poll_id := "1", address := "addr1" }`
returns `None` instead of that ballot (it looked up key `("1", "addr1")`);
with a host that rejects exactly the string "addr1" the call still
succeeds (the address is never validated); and with a host that rejects
exactly the string "1" the call fails although the address "addr1" is
well-formed (the poll id is what gets validated). -/
theorem query_vote_args_swapped :
    ballotsGet [((("addr1" : String), ("1" : String)), ({ option := "No" } : Ballot))]
        ("addr1", "1") = some { option := "No" }
    ∧ query (fun _ => true)
        { config := some { admin := "addr1" },
          polls := [("1", { admin := "addr1", question := "q",
                            options := [("Yes", 0), ("No", 1)] })],
          ballots := [(("addr1", "1"), { option := "No" })] }
        (.vote "1" "addr1")
      = .ok (.oneVote { vote := none })
    ∧ query (fun a => !(a == "addr1"))
        { config := some { admin := "addr1" },
          polls := [("1", { admin := "addr1", question := "q",
                            options := [("Yes", 0), ("No", 1)] })],
          ballots := [(("addr1", "1"), { option := "No" })] }
        (.vote "1" "addr1")
      = .ok (.oneVote { vote := none })
    ∧ query (fun a => !(a == "1"))
        { config := some { admin := "addr1" },
          polls := [("1", { admin := "addr1", question := "q",
                            options := [("Yes", 0), ("No", 1)] })],
          ballots := [(("addr1", "1"), { option := "No" })] }
        (.vote "1" "addr1")
      = .error (.invalidAddress "1") :=
  ⟨rfl, rfl, rfl, rfl⟩

/-- Option list after a re-vote: decrement at the old vote's index, then
increment at the new vote's index. -/
def voteShift (opts : List (String × Nat)) (i j : Nat) : List (String × Nat) :=
  modifyIdx (modifyIdx opts i (fun c => c - 1)) j (fun c => c + 1)

theorem firstIdx_ne_of_labels (opts : List (String × Nat)) (x y : String)
    (i j : Nat) (hi : firstIdx opts x = some i) (hj : firstIdx opts y = some j)
    (hne : y ≠ x) : j ≠ i := by
  intro he
  subst he
  have h1 := firstIdx_label opts x j hi
  have h2 := firstIdx_label opts y j hj
  rw [h1] at h2
  exact hne (Option.some.inj h2).symm

/-- Claim C6: for every existing poll, every voter holding a ballot whose
previous label occurs in the option list with count ≥ 1, and every new vote
label different from the previous one that also occurs in the list, `Vote`
succeeds with the result tagged `"vote in poll"`, stores the poll with the
first option matching the previous label decremented by 1 and the first
option matching the new label incremented by 1 (all other counts
unchanged), overwrites the ballot's option with the new label, and leaves
the total of all counts unchanged. -/
theorem revote_different_option (sender poll_id oldv newv : String) (s : Store)
    (poll : Poll) (i j : Nat)
    (hp : pollsGet s.polls poll_id = some poll)
    (hb : ballotsGet s.ballots (sender, poll_id) = some { option := oldv })
    (hi : firstIdx poll.options oldv = some i)
    (hc : 1 ≤ countAt poll.options i)
    (hne : newv ≠ oldv)
    (hj : firstIdx poll.options newv = some j) :
    execute_vote sender poll_id newv s
      = .ok ({ s with
                polls := pollsPut s.polls poll_id
                          ({ poll with options := voteShift poll.options i j } : Poll),
                ballots := ballotsPut s.ballots (sender, poll_id)
                            ({ option := newv } : Ballot) },
             [("action", "vote in poll")])
    ∧ countAt (voteShift poll.options i j) i = countAt poll.options i - 1
    ∧ countAt (voteShift poll.options i j) j = countAt poll.options j + 1
    ∧ (∀ m, m ≠ i → m ≠ j → countAt (voteShift poll.options i j) m
        = countAt poll.options m)
    ∧ optionsTotal (voteShift poll.options i j) = optionsTotal poll.options
    ∧ ballotsGet (ballotsPut s.ballots (sender, poll_id)
        ({ option := newv } : Ballot)) (sender, poll_id) = some { option := newv } := by
  have hij : j ≠ i := firstIdx_ne_of_labels poll.options oldv newv i j hi hj hne
  have hil : i < poll.options.length := firstIdx_lt_length poll.options oldv i hi
  have hjl : j < poll.options.length := firstIdx_lt_length poll.options newv j hj
  refine ⟨?_, ?_, ?_, ?_, ?_, ballotsGet_put_self _ _ _⟩
  · simp only [execute_vote, hp, hb, hi]
    rw [if_neg (by omega)]
    simp only [firstIdx_modifyIdx, hj]
    rfl
  · rw [voteShift, countAt_modifyIdx_other _ _ _ _ (Ne.symm hij),
      countAt_modifyIdx_self _ _ _ hil]
  · rw [voteShift, countAt_modifyIdx_self _ _ _ (by rw [modifyIdx_length] ; exact hjl),
      countAt_modifyIdx_other _ _ _ _ hij]
  · intro m hmi hmj
    rw [voteShift, countAt_modifyIdx_other _ _ _ _ hmj,
      countAt_modifyIdx_other _ _ _ _ hmi]
  · have h1 : optionsTotal (modifyIdx poll.options i (fun c => c - 1))
        + countAt poll.options i
        = optionsTotal poll.options + (countAt poll.options i - 1) :=
      optionsTotal_modifyIdx poll.options i (fun c => c - 1) hil
    have h2 : optionsTotal (voteShift poll.options i j)
        + countAt (modifyIdx poll.options i (fun c => c - 1)) j
        = optionsTotal (modifyIdx poll.options i (fun c => c - 1))
          + (countAt (modifyIdx poll.options i (fun c => c - 1)) j + 1) :=
      optionsTotal_modifyIdx (modifyIdx poll.options i (fun c => c - 1)) j
        (fun c => c + 1) (by rw [modifyIdx_length] ; exact hjl)
    rw [countAt_modifyIdx_other _ _ _ _ hij] at h2
    omega

/-- Claim C6 witness: poll "1" has options `[("Yes",2),("No",1)]`, voter
"addr1" moves their ballot from "Yes" (index 0) to "No" (index 1). -/
theorem revote_different_option_witness :
    pollsGet [("1", ({ admin := "addr1", question := "q",
                       options := [("Yes", 2), ("No", 1)] } : Poll))] "1"
      = some { admin := "addr1", question := "q", options := [("Yes", 2), ("No", 1)] }
    ∧ ballotsGet [(("addr1", "1"), ({ option := "Yes" } : Ballot))] ("addr1", "1")
      = some { option := "Yes" }
    ∧ firstIdx [("Yes", 2), ("No", 1)] "Yes" = some 0
    ∧ 1 ≤ countAt [("Yes", 2), ("No", 1)] 0
    ∧ ("No" : String) ≠ "Yes"
    ∧ firstIdx [("Yes", 2), ("No", 1)] "No" = some 1
    ∧ execute_vote "addr1" "1" "No"
          { config := some { admin := "addr1" },
            polls := [("1", { admin := "addr1", question := "q",
                              options := [("Yes", 2), ("No", 1)] })],
            ballots := [(("addr1", "1"), { option := "Yes" })] }
        = .ok ({ config := some { admin := "addr1" },
                 polls := [("1", { admin := "addr1", question := "q",
                                   options := voteShift [("Yes", 2), ("No", 1)] 0 1 })],
                 ballots := [(("addr1", "1"), { option := "No" })] },
               [("action", "vote in poll")])
    ∧ voteShift [("Yes", 2), ("No", 1)] 0 1 = [("Yes", 1), ("No", 2)] := by
  have h := revote_different_option "addr1" "1" "Yes" "No"
    { config := some { admin := "addr1" },
      polls := [("1", { admin := "addr1", question := "q",
                        options := [("Yes", 2), ("No", 1)] })],
      ballots := [(("addr1", "1"), { option := "Yes" })] }
    { admin := "addr1", question := "q", options := [("Yes", 2), ("No", 1)] }
    0 1 (by decide) (by decide) (by decide) (by decide) (by decide) (by decide)
  exact ⟨by decide, by decide, by decide, by decide, by decide, by decide,
         h.1, by decide⟩

/-- Claim C7: for every existing poll and every voter holding a ballot for
it, re-voting the same label (occurring in the option list with count ≥ 1)
succeeds with the result tagged `"vote in poll"` and stores the poll with
every option count exactly as before the call (the decrement and increment
hit the same index and cancel). -/
theorem revote_same_option (sender poll_id vote : String) (s : Store)
    (poll : Poll) (i : Nat)
    (hp : pollsGet s.polls poll_id = some poll)
    (hb : ballotsGet s.ballots (sender, poll_id) = some { option := vote })
    (hi : firstIdx poll.options vote = some i)
    (hc : 1 ≤ countAt poll.options i) :
    execute_vote sender poll_id vote s
      = .ok ({ s with
                polls := pollsPut s.polls poll_id poll,
                ballots := ballotsPut s.ballots (sender, poll_id)
                            ({ option := vote } : Ballot) },
             [("action", "vote in poll")])
    ∧ pollsGet (pollsPut s.polls poll_id poll) poll_id = some poll := by
  refine ⟨?_, pollsGet_put_self _ _ _⟩
  simp only [execute_vote, hp, hb, hi]
  rw [if_neg (by omega)]
  simp only [firstIdx_modifyIdx, hi]
  rw [modifyIdx_cancel poll.options i hc]

/-- Claim C7 witness: voter "addr1" re-votes "Yes" on poll "1" whose
options are `[("Yes", 1)]`. -/
theorem revote_same_option_witness :
    pollsGet [("1", ({ admin := "addr1", question := "q",
                       options := [("Yes", 1)] } : Poll))] "1"
      = some { admin := "addr1", question := "q", options := [("Yes", 1)] }
    ∧ ballotsGet [(("addr1", "1"), ({ option := "Yes" } : Ballot))] ("addr1", "1")
      = some { option := "Yes" }
    ∧ firstIdx [("Yes", 1)] "Yes" = some 0
    ∧ 1 ≤ countAt [("Yes", 1)] 0
    ∧ (execute_vote "addr1" "1" "Yes"
          { config := some { admin := "addr1" },
            polls := [("1", { admin := "addr1", question := "q",
                              options := [("Yes", 1)] })],
            ballots := [(("addr1", "1"), { option := "Yes" })] }
        = .ok ({ config := some { admin := "addr1" },
                 polls := pollsPut
                   [("1", { admin := "addr1", question := "q",
                            options := [("Yes", 1)] })] "1"
                   ({ admin := "addr1", question := "q",
                      options := [("Yes", 1)] } : Poll),
                 ballots := ballotsPut [(("addr1", "1"), { option := "Yes" })]
                   ("addr1", "1") ({ option := "Yes" } : Ballot) },
               [("action", "vote in poll")])
      ∧ pollsGet (pollsPut
            [("1", ({ admin := "addr1", question := "q",
                      options := [("Yes", 1)] } : Poll))] "1"
            ({ admin := "addr1", question := "q",
               options := [("Yes", 1)] } : Poll)) "1"
        = some { admin := "addr1", question := "q", options := [("Yes", 1)] }) :=
  ⟨by decide, by decide, by decide, by decide,
   revote_same_option "addr1" "1" "Yes"
     { config := some { admin := "addr1" },
       polls := [("1", { admin := "addr1", question := "q", options := [("Yes", 1)] })],
       ballots := [(("addr1", "1"), { option := "Yes" })] }
     { admin := "addr1", question := "q", options := [("Yes", 1)] }
     0 (by decide) (by decide) (by decide) (by decide)⟩

/-! ### Vote-count integrity -/

/-- The vote-count integrity property: for every stored poll, the sum of its
option counts equals the number of ballot entries referencing its id. -/
def storeInv (s : Store) : Prop :=
  ∀ pid poll, pollsGet s.polls pid = some poll →
    optionsTotal poll.options = ballotCount s.ballots pid

theorem optionsTotal_zeros (options : List String) :
    optionsTotal (options.map (fun o => (o, 0))) = 0 := by
  induction options with
  | nil => rfl
  | cons a rest ih => simpa [optionsTotal] using ih

theorem optionsTotal_inc (l : List (String × Nat)) (j : Nat) (hjl : j < l.length) :
    optionsTotal (modifyIdx l j (fun c => c + 1)) = optionsTotal l + 1 := by
  have h : optionsTotal (modifyIdx l j (fun c => c + 1)) + countAt l j
      = optionsTotal l + (countAt l j + 1) :=
    optionsTotal_modifyIdx l j (fun c => c + 1) hjl
  omega

theorem optionsTotal_voteShift (l : List (String × Nat)) (i j : Nat)
    (hil : i < l.length) (hjl : j < l.length) (hc : 1 ≤ countAt l i) :
    optionsTotal (voteShift l i j) = optionsTotal l := by
  have h1 : optionsTotal (modifyIdx l i (fun c => c - 1)) + countAt l i
      = optionsTotal l + (countAt l i - 1) :=
    optionsTotal_modifyIdx l i (fun c => c - 1) hil
  have h2 : optionsTotal (voteShift l i j)
      = optionsTotal (modifyIdx l i (fun c => c - 1)) + 1 :=
    optionsTotal_inc (modifyIdx l i (fun c => c - 1)) j
      (by rw [modifyIdx_length] ; exact hjl)
  omega

theorem storeInv_create (sender poll_id question : String) (options : List String)
    (s s1 : Store) (r : Response)
    (hfresh : ballotCount s.ballots poll_id = 0)
    (hstep : execute_create_poll sender poll_id question options s = .ok (s1, r))
    (hinv : storeInv s) : storeInv s1 := by
  by_cases hlen : options.length > 10
  · simp [execute_create_poll, hlen] at hstep
  · simp [execute_create_poll, hlen] at hstep
    obtain ⟨hs1, -⟩ := hstep
    subst hs1
    intro pid2 poll2 hget
    by_cases hp2 : pid2 = poll_id
    · subst hp2
      rw [pollsGet_put_self] at hget
      obtain rfl := Option.some.inj hget
      simpa [optionsTotal_zeros] using hfresh.symm
    · rw [pollsGet_put_other _ _ _ _ hp2] at hget
      exact hinv pid2 poll2 hget

theorem storeInv_vote (sender poll_id vote : String) (s s1 : Store) (r : Response)
    (hstep : execute_vote sender poll_id vote s = .ok (s1, r))
    (hinv : storeInv s) : storeInv s1 := by
  cases hpg : pollsGet s.polls poll_id with
  | none => simp [execute_vote, hpg] at hstep
  | some poll =>
    cases hbg : ballotsGet s.ballots (sender, poll_id) with
    | some ballot =>
      cases hfi : firstIdx poll.options ballot.option with
      | none => simp [execute_vote, hpg, hbg, hfi] at hstep
      | some i =>
        by_cases hz : countAt poll.options i = 0
        · simp [execute_vote, hpg, hbg, hfi, hz] at hstep
        · cases hfj : firstIdx (modifyIdx poll.options i (fun c => c - 1)) vote with
          | none => simp [execute_vote, hpg, hbg, hfi, hz, hfj] at hstep
          | some j =>
            simp [execute_vote, hpg, hbg, hfi, hz, hfj] at hstep
            obtain ⟨hs1, -⟩ := hstep
            subst hs1
            intro pid2 poll2 hget
            have hcount : ∀ p, ballotCount
                (ballotsPut s.ballots (sender, poll_id) { option := vote }) p
                = ballotCount s.ballots p :=
              fun p => ballotCount_put_present s.ballots _ _ ballot hbg p
            by_cases hp2 : pid2 = poll_id
            · subst hp2
              rw [pollsGet_put_self] at hget
              obtain rfl := Option.some.inj hget
              have hil : i < poll.options.length :=
                firstIdx_lt_length poll.options ballot.option i hfi
              have hjl : j < poll.options.length := by
                have := firstIdx_lt_length _ vote j hfj
                rwa [modifyIdx_length] at this
              have htot : optionsTotal (voteShift poll.options i j)
                  = optionsTotal poll.options :=
                optionsTotal_voteShift poll.options i j hil hjl (by omega)
              rw [hcount]
              simpa [voteShift] using htot.trans (hinv pid2 poll hpg)
            · rw [pollsGet_put_other _ _ _ _ hp2] at hget
              rw [hcount]
              exact hinv pid2 poll2 hget
    | none =>
      cases hfj : firstIdx poll.options vote with
      | none => simp [execute_vote, hpg, hbg, hfj] at hstep
      | some j =>
        simp [execute_vote, hpg, hbg, hfj] at hstep
        obtain ⟨hs1, -⟩ := hstep
        subst hs1
        intro pid2 poll2 hget
        have hcount : ∀ p, ballotCount
            (ballotsPut s.ballots (sender, poll_id) { option := vote }) p
            = ballotCount s.ballots p + (if poll_id = p then 1 else 0) :=
          fun p => ballotCount_put_absent s.ballots _ _ hbg p
        by_cases hp2 : pid2 = poll_id
        · subst hp2
          rw [pollsGet_put_self] at hget
          obtain rfl := Option.some.inj hget
          have hjl : j < poll.options.length := firstIdx_lt_length _ vote j hfj
          have htot : optionsTotal (modifyIdx poll.options j (fun c => c + 1))
              = optionsTotal poll.options + 1 :=
            optionsTotal_inc poll.options j hjl
          rw [hcount]
          simp [htot, hinv pid2 poll hpg]
        · rw [pollsGet_put_other _ _ _ _ hp2] at hget
          rw [hcount]
          simp [Ne.symm hp2, hinv pid2 poll2 hget]

theorem storeInv_run {s s1 : Store} {ops : List (String × ExecuteMsg)}
    (hrun : RunOkFresh s ops s1) : storeInv s → storeInv s1 := by
  induction hrun with
  | nil => exact id
  | consCreate hfresh hstep _ ih =>
    intro hinv
    exact ih (storeInv_create _ _ _ _ _ _ _ hfresh (by simpa [execute] using hstep) hinv)
  | consVote hstep _ ih =>
    intro hinv
    exact ih (storeInv_vote _ _ _ _ _ _ (by simpa [execute] using hstep) hinv)

/-- Claim C2 (amended): for every state reachable from the initialized
state by successful `CreatePoll` and `Vote` operations in which every
`CreatePoll` targets a `poll_id` that no stored ballot references at the
time of the call, and for every poll stored in that state, the sum of
`vote_count` over the poll's options equals the number of ballot entries
whose key references that `poll_id`.  (The freshness restriction is forced:
re-creating a poll id that already has ballots resets the counts to zero
while the ballots persist, see the counterexample.) -/
theorem vote_count_integrity (admin : String) (ops : List (String × ExecuteMsg))
    (s1 : Store) (hrun : RunOkFresh (initStore admin) ops s1)
    (pid : String) (poll : Poll) (hget : pollsGet s1.polls pid = some poll) :
    optionsTotal poll.options = ballotCount s1.ballots pid := by
  have hinit : storeInv (initStore admin) := by
    intro p q hq
    simp [initStore, pollsGet] at hq
  exact storeInv_run hrun hinit pid poll hget

/-- Claim C2 (amended) witness: create poll "1" with options ["A","B"] while
no ballots exist, then "addr1" votes "A"; the reached state has option
counts summing to 1 and exactly one ballot referencing "1". -/
theorem vote_count_integrity_witness :
    optionsTotal ([("A", 1), ("B", 0)] : List (String × Nat))
      = ballotCount [(("addr1", "1"), ({ option := "A" } : Ballot))] "1" := by
  have hrun : RunOkFresh (initStore "addr1")
      [("addr1", .createPoll "1" "q" ["A", "B"]), ("addr1", .vote "1" "A")]
      { config := some { admin := "addr1" },
        polls := [("1", { admin := "addr1", question := "q",
                          options := [("A", 1), ("B", 0)] })],
        ballots := [(("addr1", "1"), { option := "A" })] } :=
    RunOkFresh.consCreate rfl rfl (RunOkFresh.consVote rfl (RunOkFresh.nil _))
  exact vote_count_integrity "addr1"
    [("addr1", .createPoll "1" "q" ["A", "B"]), ("addr1", .vote "1" "A")]
    { config := some { admin := "addr1" },
      polls := [("1", { admin := "addr1", question := "q",
                        options := [("A", 1), ("B", 0)] })],
      ballots := [(("addr1", "1"), { option := "A" })] }
    hrun "1"
    { admin := "addr1", question := "q", options := [("A", 1), ("B", 0)] } rfl

/-- Claim C2 counterexample: the state reached from the initialized state by
the successful sequence CreatePoll "1" ["A","B"]; Vote "1" "A";
CreatePoll "1" ["A","B"] stores poll "1" with option counts summing to 0
while one ballot entry still references "1" — so the invariant fails on a
state reachable by successful CreatePoll and Vote operations alone. -/
theorem vote_count_integrity_counterexample :
    RunOk (initStore "addr1")
      [("addr1", .createPoll "1" "q" ["A", "B"]),
       ("addr1", .vote "1" "A"),
       ("addr1", .createPoll "1" "q" ["A", "B"])]
      { config := some { admin := "addr1" },
        polls := [("1", { admin := "addr1", question := "q",
                          options := [("A", 0), ("B", 0)] })],
        ballots := [(("addr1", "1"), { option := "A" })] }
    ∧ pollsGet [("1", ({ admin := "addr1", question := "q",
                         options := [("A", 0), ("B", 0)] } : Poll))] "1"
      = some { admin := "addr1", question := "q", options := [("A", 0), ("B", 0)] }
    ∧ optionsTotal ([("A", 0), ("B", 0)] : List (String × Nat)) = 0
    ∧ ballotCount [(("addr1", "1"), ({ option := "A" } : Ballot))] "1" = 1
    ∧ (0 : Nat) ≠ 1 :=
  ⟨RunOk.cons rfl (RunOk.cons rfl (RunOk.cons rfl (RunOk.nil _))),
   rfl, rfl, rfl, by decide⟩

/-- Claim C10: a state reachable through the public interface in which
`Vote` is not total.  After CreatePoll "1" ["A","B"]; Vote "1" "A";
CreatePoll "1" ["A","B"] (the overwrite resets both counts to 0 while the
ballot of "addr1" persists), the next Vote by "addr1" — here for "B", with
both the old label "A" and the new label "B" present in the option list —
reaches the decrement step with the old option's count at 0 and aborts
with the underflow fault of `poll.options[i].1 -= 1`. -/
theorem vote_underflow_reachable :
    RunOk (initStore "addr1")
      [("addr1", .createPoll "1" "q" ["A", "B"]),
       ("addr1", .vote "1" "A"),
       ("addr1", .createPoll "1" "q" ["A", "B"])]
      { config := some { admin := "addr1" },
        polls := [("1", { admin := "addr1", question := "q",
                          options := [("A", 0), ("B", 0)] })],
        ballots := [(("addr1", "1"), { option := "A" })] }
    ∧ ballotsGet [(("addr1", "1"), ({ option := "A" } : Ballot))] ("addr1", "1")
      = some { option := "A" }
    ∧ firstIdx [("A", 0), ("B", 0)] "A" = some 0
    ∧ firstIdx [("A", 0), ("B", 0)] "B" = some 1
    ∧ countAt [("A", 0), ("B", 0)] 0 = 0
    ∧ execute "addr1" (.vote "1" "B")
        { config := some { admin := "addr1" },
          polls := [("1", { admin := "addr1", question := "q",
                            options := [("A", 0), ("B", 0)] })],
          ballots := [(("addr1", "1"), { option := "A" })] }
      = .error .panicCountUnderflow :=
  ⟨RunOk.cons rfl (RunOk.cons rfl (RunOk.cons rfl (RunOk.nil _))),
   rfl, rfl, rfl, rfl, rfl⟩

end PollContract
